import Mathlib

/-!
Verification of the workshop session lifecycle of the Docker Workshop Platform.

The embedding follows the backend session router (the Express route file
handling POST/GET/DELETE on /api/workshops/sessions) together with the
workshop_sessions table of the database schema.  Times are natural numbers
denoting Unix milliseconds, as produced by JavaScript's Date.now(); the SQL
CURRENT_TIMESTAMP of a handler invocation and the handler's own Date.now()
are modelled by the single `now` argument of each operation.

The GET /sessions (list) endpoint performs only a SELECT and never writes,
so it plays no role in the reachable-state relation below.
-/

namespace WorkshopPlatform

/-- The session_status enum of the database schema. -/
inductive SessionStatus where
  | pending
  | active
  | completed
  | expired
  | failed
deriving DecidableEq

/-- A row of the labs table, restricted to the two columns the session
router consults (`SELECT id FROM labs WHERE id = $1 AND is_published = true`). -/
structure Lab where
  id : Nat
  isPublished : Bool
deriving DecidableEq

/-- A row of the workshop_sessions table, restricted to the columns the
session router reads or writes.  `expiresAt`, `startedAt` and `endedAt` are
optional so that "the field is set" is expressible; the INSERT of the create
handler sets `expires_at` and `started_at` and leaves `ended_at` NULL. -/
structure Session where
  id : Nat
  userId : Nat
  labId : Nat
  instanceId : String
  workspaceUrl : String
  status : SessionStatus
  expiresAt : Option Nat
  startedAt : Option Nat
  endedAt : Option Nat
  createdAt : Nat
  updatedAt : Nat
deriving DecidableEq

/-- The database state seen by the session router: the labs reference data,
the workshop_sessions rows, and a fresh-id counter standing for the
uuid/row-id generation of the store. -/
structure Store where
  labs : List Lab
  sessions : List Session
  nextId : Nat
deriving DecidableEq

/-- `const maxSessions = 3` in the create handler ("From config"). -/
def maxSessions : Nat := 3

/-- The create handler's `2 * 60 * 60 * 1000` (two hours) in milliseconds. -/
def sessionDurationMs : Nat := 2 * 60 * 60 * 1000

/-- `SELECT COUNT(*) FROM workshop_sessions WHERE user_id = $1 AND status = 'active'`. -/
def countActive (sessions : List Session) (userId : Nat) : Nat :=
  sessions.countP fun s => s.userId == userId && s.status == SessionStatus.active

/-- The global number of rows with `status = 'active'`; no handler of the
router issues this query. -/
def countActiveGlobal (sessions : List Session) : Nat :=
  sessions.countP fun s => s.status == SessionStatus.active

/-- `SELECT id FROM labs WHERE id = $1 AND is_published = true` is nonempty. -/
def labPublished (labs : List Lab) (labId : Nat) : Bool :=
  labs.any fun l => l.id == labId && l.isPublished

/-- Outcome of the POST /sessions handler (the ValidationError branch for a
missing labId is outside the model, which always receives a labId). -/
inductive CreateResult where
  | ok (session : Session)
  | labNotFound
  | capacityExceeded
deriving DecidableEq

/-- HTTP status code of each create outcome: 201 on success, 404 for
NotFoundError, and the literal `res.status(409)` of the capacity branch. -/
def CreateResult.httpStatus : CreateResult → Nat
  | .ok _ => 201
  | .labNotFound => 404
  | .capacityExceeded => 409

/-- The session carried by a successful create outcome, if any. -/
def CreateResult.session? : CreateResult → Option Session
  | .ok s => some s
  | _ => none

/-- The row inserted by the create handler: status 'active',
`expires_at = now + 2h`, `started_at = CURRENT_TIMESTAMP`, `ended_at` NULL.
The instance id `ws-${Date.now()}-${random}` is modelled with the fresh-id
counter standing in for the random suffix. -/
def newSessionRow (st : Store) (userId labId now : Nat) : Session :=
  { id := st.nextId
    userId := userId
    labId := labId
    instanceId := "ws-" ++ toString now ++ "-" ++ toString st.nextId
    workspaceUrl := "https://workshop-demo.docker-learn.com/?session=ws-" ++
      toString now ++ "-" ++ toString st.nextId
    status := SessionStatus.active
    expiresAt := some (now + sessionDurationMs)
    startedAt := some now
    endedAt := none
    createdAt := now
    updatedAt := now }

/-- POST /api/workshops/sessions: verify the lab, count the caller's active
sessions against the cap, then INSERT the row above. -/
def createSession (st : Store) (userId labId now : Nat) : CreateResult × Store :=
  if !labPublished st.labs labId then
    (CreateResult.labNotFound, st)
  else if maxSessions ≤ countActive st.sessions userId then
    (CreateResult.capacityExceeded, st)
  else
    (CreateResult.ok (newSessionRow st userId labId now),
     { st with sessions := newSessionRow st userId labId now :: st.sessions,
               nextId := st.nextId + 1 })

/-- Outcome of the GET /sessions/:id handler. -/
inductive GetResult where
  | ok (session : Session)
  | notFound
deriving DecidableEq

/-- The row update of the lazy-expiry branch:
`UPDATE workshop_sessions SET status = 'expired', ended_at = CURRENT_TIMESTAMP,
updated_at = CURRENT_TIMESTAMP WHERE id = $1`. -/
def expireUpdate (id now : Nat) (s : Session) : Session :=
  if s.id == id then
    { s with status := SessionStatus.expired, endedAt := some now, updatedAt := now }
  else s

/-- GET /api/workshops/sessions/:id: SELECT the row by id and owner; if
`now > expiresAt` and the status is 'active', UPDATE the row to 'expired'
and return the locally mutated object (whose `updated_at` the handler does
not touch); otherwise return the row untouched. -/
def getSession (st : Store) (id userId now : Nat) : GetResult × Store :=
  match st.sessions.find? (fun s => s.id == id && s.userId == userId) with
  | none => (GetResult.notFound, st)
  | some s =>
    if s.expiresAt.getD 0 < now && s.status == SessionStatus.active then
      (GetResult.ok { s with status := SessionStatus.expired, endedAt := some now },
       { st with sessions := st.sessions.map (expireUpdate s.id now) })
    else
      (GetResult.ok s, st)

/-- Outcome of the DELETE /sessions/:id handler. -/
inductive TerminateResult where
  | ok
  | notFound
deriving DecidableEq

/-- The row update of the terminate handler:
`UPDATE workshop_sessions SET status = 'completed', ended_at = CURRENT_TIMESTAMP,
updated_at = CURRENT_TIMESTAMP WHERE id = $1 AND user_id = $2 AND status = 'active'`. -/
def terminateUpdate (id userId now : Nat) (s : Session) : Session :=
  if s.id == id && s.userId == userId && s.status == SessionStatus.active then
    { s with status := SessionStatus.completed, endedAt := some now, updatedAt := now }
  else s

/-- DELETE /api/workshops/sessions/:id: run the conditional UPDATE above and
report NotFoundError ('Active workshop session not found') when it affected
no row. -/
def terminateSession (st : Store) (id userId now : Nat) : TerminateResult × Store :=
  if st.sessions.any (fun s => s.id == id && s.userId == userId && s.status == SessionStatus.active) then
    (TerminateResult.ok, { st with sessions := st.sessions.map (terminateUpdate id userId now) })
  else
    (TerminateResult.notFound, st)

/-- States of the workshop_sessions table reachable through the exposed
mutating session operations, starting from an empty table over arbitrary
labs reference data. -/
inductive Reachable : Store → Prop where
  | init (labs : List Lab) : Reachable { labs := labs, sessions := [], nextId := 0 }
  | create (st : Store) (userId labId now : Nat) :
      Reachable st → Reachable (createSession st userId labId now).2
  | get (st : Store) (id userId now : Nat) :
      Reachable st → Reachable (getSession st id userId now).2
  | terminate (st : Store) (id userId now : Nat) :
      Reachable st → Reachable (terminateSession st id userId now).2

/-- Modelled from the spec: `maxSessionDuration` (default 180 min) in
milliseconds; the backend exposes no configuration or handler for it. -/
def maxSessionDurationMs : Nat := 180 * 60 * 1000

/-- Modelled from the spec: the extendSession operation.  The backend router
has no PATCH /sessions/:id/extend handler (only the frontend caller
workshopsApi.extendSession exists), so the owner-initiated extension
transition is taken from the spec's state machine: on an active session,
set `expiresAt = min(expiresAt + requested, startedAt + maxSessionDuration)`;
on any other session the record is unchanged. -/
def extendSession (s : Session) (requested : Nat) : Session :=
  match s.status, s.expiresAt, s.startedAt with
  | SessionStatus.active, some e, some t0 =>
      { s with expiresAt := some (min (e + requested) (t0 + maxSessionDurationMs)) }
  | _, _, _ => s

/-! Concrete stores used by witnesses and counterexamples. -/

/-- A store holding one published lab and no sessions. -/
def initialStoreOneLab : Store :=
  { labs := [{ id := 1, isPublished := true }], sessions := [], nextId := 0 }

/-- The store after user 1 creates a session for lab 1 at time 0. -/
def s0Store : Store := (createSession initialStoreOneLab 1 1 0).2

/-- The session record created by user 1 for lab 1 at time 0. -/
def demoSession0 : Session :=
  { id := 0
    userId := 1
    labId := 1
    instanceId := "ws-0-0"
    workspaceUrl := "https://workshop-demo.docker-learn.com/?session=ws-0-0"
    status := SessionStatus.active
    expiresAt := some 7200000
    startedAt := some 0
    endedAt := none
    createdAt := 0
    updatedAt := 0 }

/-- The store after the session of `s0Store` is terminated at time 10. -/
def termStore1 : Store := (terminateSession s0Store 0 1 10).2

/-- The store after user 1 created three sessions for lab 1 at time 0. -/
def capDemoStore : Store :=
  (createSession (createSession s0Store 1 1 0).2 1 1 0).2

/-- The store after users 1, ..., n each created one session for lab 1. -/
def bigStore : Nat → Store
  | 0 => initialStoreOneLab
  | n + 1 => (createSession (bigStore n) (n + 1) 1 0).2

/-- Well-formedness of a session row as maintained by the handlers:
`expires_at` is always written at insert time, only the three statuses
'active', 'completed' and 'expired' ever occur, and `ended_at` is set
exactly on the terminal statuses. -/
def SessionWF (s : Session) : Prop :=
  s.expiresAt ≠ none ∧
  (s.status = SessionStatus.active ∨ s.status = SessionStatus.completed ∨
    s.status = SessionStatus.expired) ∧
  (s.endedAt ≠ none ↔
    (s.status = SessionStatus.completed ∨ s.status = SessionStatus.expired ∨
     s.status = SessionStatus.failed))

/-! Characterization lemmas for the three handlers. -/

theorem createSession_labNotFound (st : Store) (u l now : Nat)
    (hlab : labPublished st.labs l = false) :
    createSession st u l now = (CreateResult.labNotFound, st) := by
  unfold createSession
  rw [hlab]
  rfl

theorem createSession_reject (st : Store) (u l now : Nat)
    (hlab : labPublished st.labs l = true)
    (hcount : maxSessions ≤ countActive st.sessions u) :
    createSession st u l now = (CreateResult.capacityExceeded, st) := by
  unfold createSession
  rw [hlab]
  simp [hcount]

theorem createSession_admitOk (st : Store) (u l now : Nat)
    (hlab : labPublished st.labs l = true)
    (hcount : countActive st.sessions u < maxSessions) :
    createSession st u l now =
      (CreateResult.ok (newSessionRow st u l now),
       { st with sessions := newSessionRow st u l now :: st.sessions,
                 nextId := st.nextId + 1 }) := by
  unfold createSession
  rw [hlab]
  simp [Nat.not_le.mpr hcount]

theorem newSessionRow_fields (st : Store) (u l now : Nat) :
    (newSessionRow st u l now).userId = u ∧
    (newSessionRow st u l now).labId = l ∧
    (newSessionRow st u l now).status = SessionStatus.active ∧
    (newSessionRow st u l now).startedAt = some now ∧
    (newSessionRow st u l now).expiresAt = some (now + sessionDurationMs) ∧
    (newSessionRow st u l now).endedAt = none ∧
    (newSessionRow st u l now).id = st.nextId ∧
    (newSessionRow st u l now).createdAt = now :=
  ⟨rfl, rfl, rfl, rfl, rfl, rfl, rfl, rfl⟩

theorem getSession_store_cases (st : Store) (i u now : Nat) :
    (getSession st i u now).2 = st ∨
    ∃ j, (getSession st i u now).2 =
      { st with sessions := st.sessions.map (expireUpdate j now) } := by
  unfold getSession
  split
  · exact Or.inl rfl
  · split
    · rename_i s hs hc
      exact Or.inr ⟨s.id, rfl⟩
    · exact Or.inl rfl

theorem terminateSession_store_cases (st : Store) (i u now : Nat) :
    (terminateSession st i u now).2 = st ∨
    (terminateSession st i u now).2 =
      { st with sessions := st.sessions.map (terminateUpdate i u now) } := by
  unfold terminateSession
  split
  · exact Or.inr rfl
  · exact Or.inl rfl

/-! The two row updates preserve owners and never make a row active. -/

theorem expireUpdate_userId (j now : Nat) (s : Session) :
    (expireUpdate j now s).userId = s.userId := by
  unfold expireUpdate
  split <;> rfl

theorem expireUpdate_active (j now : Nat) (s : Session)
    (h : (expireUpdate j now s).status = SessionStatus.active) :
    s.status = SessionStatus.active := by
  unfold expireUpdate at h
  split at h
  · simp at h
  · exact h

theorem terminateUpdate_userId (i u now : Nat) (s : Session) :
    (terminateUpdate i u now s).userId = s.userId := by
  unfold terminateUpdate
  split <;> rfl

theorem terminateUpdate_active (i u now : Nat) (s : Session)
    (h : (terminateUpdate i u now s).status = SessionStatus.active) :
    s.status = SessionStatus.active := by
  unfold terminateUpdate at h
  split at h
  · simp at h
  · exact h

/-! Counting lemmas. -/

theorem countActive_cons (s : Session) (l : List Session) (u : Nat) :
    countActive (s :: l) u =
      countActive l u +
        if s.userId == u && s.status == SessionStatus.active then 1 else 0 := by
  unfold countActive
  rw [List.countP_cons]

theorem countActive_map_le (f : Session → Session) (l : List Session) (u : Nat)
    (hu : ∀ s, (f s).userId = s.userId)
    (hs : ∀ s, (f s).status = SessionStatus.active → s.status = SessionStatus.active) :
    countActive (l.map f) u ≤ countActive l u := by
  unfold countActive
  rw [List.countP_map]
  refine List.countP_mono_left ?_
  intro s _ hp
  simp only [Function.comp_apply, Bool.and_eq_true, beq_iff_eq] at hp ⊢
  refine ⟨?_, hs s hp.2⟩
  rw [← hu s]
  exact hp.1

/-- The per-user active-session cap holds in every reachable state. -/
theorem reachable_countActive_le (st : Store) (h : Reachable st) (u : Nat) :
    countActive st.sessions u ≤ maxSessions := by
  induction h with
  | init labs => simp [countActive]
  | create st' u0 l now h ih =>
    rcases Bool.eq_false_or_eq_true (labPublished st'.labs l) with h1 | h1
    · rcases Nat.lt_or_ge (countActive st'.sessions u0) maxSessions with h2 | h2
      · rw [createSession_admitOk st' u0 l now h1 h2]
        simp only
        rw [countActive_cons]
        split
        · rename_i hcond
          rw [Bool.and_eq_true, beq_iff_eq, beq_iff_eq] at hcond
          have huid : u0 = u := by
            rw [← (newSessionRow_fields st' u0 l now).1]
            exact hcond.1
          subst huid
          omega
        · omega
      · rw [createSession_reject st' u0 l now h1 h2]
        exact ih
    · rw [createSession_labNotFound st' u0 l now h1]
      exact ih
  | get st' i u0 now h ih =>
    rcases getSession_store_cases st' i u0 now with heq | ⟨j, heq⟩
    · rw [heq]; exact ih
    · rw [heq]
      simp only
      exact le_trans
        (countActive_map_le (expireUpdate j now) st'.sessions u
          (expireUpdate_userId j now) (expireUpdate_active j now)) ih
  | terminate st' i u0 now h ih =>
    rcases terminateSession_store_cases st' i u0 now with heq | heq
    · rw [heq]; exact ih
    · rw [heq]
      simp only
      exact le_trans
        (countActive_map_le (terminateUpdate i u0 now) st'.sessions u
          (terminateUpdate_userId i u0 now) (terminateUpdate_active i u0 now)) ih

/-! Field well-formedness of reachable session rows. -/

theorem expireUpdate_WF (j now : Nat) (s : Session) (h : SessionWF s) :
    SessionWF (expireUpdate j now s) := by
  unfold expireUpdate
  split
  · exact ⟨h.1, by simp, by simp⟩
  · exact h

theorem terminateUpdate_WF (i u now : Nat) (s : Session) (h : SessionWF s) :
    SessionWF (terminateUpdate i u now s) := by
  unfold terminateUpdate
  split
  · exact ⟨h.1, by simp, by simp⟩
  · exact h

theorem newSessionRow_WF (st : Store) (u l now : Nat) :
    SessionWF (newSessionRow st u l now) := by
  refine ⟨by simp [newSessionRow], Or.inl rfl, by simp [newSessionRow]⟩

/-- Every session row of a reachable store is well-formed. -/
theorem reachable_sessionWF (st : Store) (h : Reachable st) :
    ∀ s ∈ st.sessions, SessionWF s := by
  induction h with
  | init labs =>
    intro s hs
    simp at hs
  | create st' u0 l now h ih =>
    rcases Bool.eq_false_or_eq_true (labPublished st'.labs l) with h1 | h1
    · rcases Nat.lt_or_ge (countActive st'.sessions u0) maxSessions with h2 | h2
      · rw [createSession_admitOk st' u0 l now h1 h2]
        simp only
        intro s hs
        rcases List.mem_cons.mp hs with rfl | hs
        · exact newSessionRow_WF st' u0 l now
        · exact ih s hs
      · rw [createSession_reject st' u0 l now h1 h2]
        exact ih
    · rw [createSession_labNotFound st' u0 l now h1]
      exact ih
  | get st' i u0 now h ih =>
    rcases getSession_store_cases st' i u0 now with heq | ⟨j, heq⟩
    · rw [heq]; exact ih
    · rw [heq]
      simp only
      intro s hs
      obtain ⟨y, hy, rfl⟩ := List.mem_map.mp hs
      exact expireUpdate_WF j now y (ih y hy)
  | terminate st' i u0 now h ih =>
    rcases terminateSession_store_cases st' i u0 now with heq | heq
    · rw [heq]; exact ih
    · rw [heq]
      simp only
      intro s hs
      obtain ⟨y, hy, rfl⟩ := List.mem_map.mp hs
      exact terminateUpdate_WF i u0 now y (ih y hy)

/-! Lemmas about the family of stores `bigStore`. -/

theorem createSession_labs (st : Store) (u l now : Nat) :
    (createSession st u l now).2.labs = st.labs := by
  unfold createSession
  split
  · rfl
  · split
    · rfl
    · rfl

theorem bigStore_labs (n : Nat) :
    (bigStore n).labs = [{ id := 1, isPublished := true }] := by
  induction n with
  | zero => rfl
  | succ n ih =>
    show (createSession (bigStore n) (n + 1) 1 0).2.labs = _
    rw [createSession_labs]
    exact ih

theorem bigStore_spec (n : Nat) :
    (bigStore n).sessions.length = n ∧
    ∀ s ∈ (bigStore n).sessions,
      s.status = SessionStatus.active ∧ 1 ≤ s.userId ∧ s.userId ≤ n := by
  induction n with
  | zero =>
    refine ⟨rfl, ?_⟩
    intro s hs
    simp [bigStore, initialStoreOneLab] at hs
  | succ n ih =>
    have hlab : labPublished (bigStore n).labs 1 = true := by
      rw [bigStore_labs]
      rfl
    have hcount : countActive (bigStore n).sessions (n + 1) = 0 := by
      unfold countActive
      refine List.countP_eq_zero.mpr ?_
      intro s hs hc
      rw [Bool.and_eq_true, beq_iff_eq, beq_iff_eq] at hc
      have hle := (ih.2 s hs).2.2
      have hequ := hc.1
      omega
    have hadmit := createSession_admitOk (bigStore n) (n + 1) 1 0 hlab
      (by rw [hcount]; decide)
    have hrw : bigStore (n + 1) = (createSession (bigStore n) (n + 1) 1 0).2 := rfl
    constructor
    · rw [hrw, hadmit]
      simp [ih.1]
    · intro s hs
      rw [hrw, hadmit] at hs
      simp only at hs
      rcases List.mem_cons.mp hs with rfl | hs
      · refine ⟨rfl, ?_, ?_⟩ <;> simp [newSessionRow]
      · obtain ⟨ha, h1, h2⟩ := ih.2 s hs
        exact ⟨ha, h1, by omega⟩

theorem bigStore_reachable (n : Nat) : Reachable (bigStore n) := by
  induction n with
  | zero => exact Reachable.init _
  | succ n ih => exact Reachable.create _ _ _ _ ih

theorem bigStore_global (n : Nat) :
    countActiveGlobal (bigStore n).sessions = n := by
  have hall : ∀ s ∈ (bigStore n).sessions,
      (s.status == SessionStatus.active) = true := by
    intro s hs
    have := ((bigStore_spec n).2 s hs).1
    simp [this]
  unfold countActiveGlobal
  rw [List.countP_eq_length.mpr hall, (bigStore_spec n).1]

theorem bigStore_countActive_top (n : Nat) :
    countActive (bigStore n).sessions (n + 1) = 0 := by
  unfold countActive
  refine List.countP_eq_zero.mpr ?_
  intro s hs hc
  rw [Bool.and_eq_true, beq_iff_eq, beq_iff_eq] at hc
  have hle := ((bigStore_spec n).2 s hs).2.2
  have hequ := hc.1
  omega

theorem bigStore_step_admit (n : Nat) :
    createSession (bigStore n) (n + 1) 1 0 =
      (CreateResult.ok (newSessionRow (bigStore n) (n + 1) 1 0),
       { bigStore n with
           sessions := newSessionRow (bigStore n) (n + 1) 1 0 :: (bigStore n).sessions,
           nextId := (bigStore n).nextId + 1 }) :=
  createSession_admitOk _ _ _ _ (by rw [bigStore_labs]; rfl)
    (by rw [bigStore_countActive_top]; decide)

theorem getSession_eq_of_find_none (st : Store) (i u now : Nat)
    (hf : st.sessions.find? (fun x => x.id == i && x.userId == u) = none) :
    getSession st i u now = (GetResult.notFound, st) := by
  unfold getSession
  rw [hf]

theorem getSession_eq_of_find_some (st : Store) (i u now : Nat) (s : Session)
    (hf : st.sessions.find? (fun x => x.id == i && x.userId == u) = some s) :
    getSession st i u now =
      if s.expiresAt.getD 0 < now && s.status == SessionStatus.active then
        (GetResult.ok { s with status := SessionStatus.expired, endedAt := some now },
         { st with sessions := st.sessions.map (expireUpdate s.id now) })
      else (GetResult.ok s, st) := by
  unfold getSession
  rw [hf]

/-- A single spec-modelled extension keeps startedAt and keeps expiresAt
below startedAt + maxSessionDuration. -/
theorem extendSession_fields (s : Session) (r t0 : Nat)
    (hst : s.startedAt = some t0)
    (hbound : ∀ e, s.expiresAt = some e → e ≤ t0 + maxSessionDurationMs) :
    (extendSession s r).startedAt = some t0 ∧
    ∀ e, (extendSession s r).expiresAt = some e →
      e ≤ t0 + maxSessionDurationMs := by
  unfold extendSession
  split
  · rename_i e t1 hstat hexp hstart
    have ht : t1 = t0 := by
      rw [hstart] at hst
      injection hst
    subst ht
    refine ⟨hst, ?_⟩
    intro e2 he2
    simp only [Option.some.injEq] at he2
    rw [← he2]
    exact min_le_right _ _
  · exact ⟨hst, hbound⟩

/-! The claims. -/

/-- C1: in every store reachable through the exposed session operations each
owner has at most maxSessions (3) sessions with status 'active'; and a
createSession call for a published lab, made while the caller already has at
least 3 active sessions, is answered with the capacity error carrying HTTP
status 409 and leaves the store unchanged, creating no session record. -/
theorem perUserSessionCap (st : Store) (h : Reachable st) :
    (∀ u, countActive st.sessions u ≤ maxSessions) ∧
    (∀ u l now, labPublished st.labs l = true →
      maxSessions ≤ countActive st.sessions u →
      (createSession st u l now).1 = CreateResult.capacityExceeded ∧
      (createSession st u l now).1.httpStatus = 409 ∧
      (createSession st u l now).2 = st) := by
  refine ⟨reachable_countActive_le st h, ?_⟩
  intro u l now hlab hcount
  rw [createSession_reject st u l now hlab hcount]
  exact ⟨rfl, rfl, rfl⟩

/-- C1 witness: after three creates by user 1, a fourth create is rejected
with the 409 capacity error and the store is unchanged. -/
theorem perUserSessionCap_witness :
    (createSession capDemoStore 1 1 5).1 = CreateResult.capacityExceeded ∧
    (createSession capDemoStore 1 1 5).1.httpStatus = 409 ∧
    (createSession capDemoStore 1 1 5).2 = capDemoStore :=
  (perUserSessionCap capDemoStore
      (Reachable.create _ 1 1 0 (Reachable.create _ 1 1 0
        (Reachable.create _ 1 1 0 (Reachable.init _))))).2
    1 1 5 (by decide) (by decide)

/-- C2: the create handler performs no global active-session count, so the
claimed global cap of 500 is not enforced: the store reached by 500 distinct
users each creating one session holds 500 active sessions, yet a create call
by a 501st user is still admitted, taking the global active count to 501. -/
theorem noGlobalSessionCap :
    Reachable (bigStore 500) ∧
    countActiveGlobal (bigStore 500).sessions = 500 ∧
    (∃ s, (createSession (bigStore 500) 501 1 0).1 = CreateResult.ok s) ∧
    countActiveGlobal (createSession (bigStore 500) 501 1 0).2.sessions = 501 := by
  have hstep := bigStore_step_admit 500
  have h501 : (500 : Nat) + 1 = 501 := rfl
  rw [h501] at hstep
  refine ⟨bigStore_reachable 500, bigStore_global 500, ⟨_, by rw [hstep]⟩, ?_⟩
  have hrw : (createSession (bigStore 500) 501 1 0).2 = bigStore 501 := rfl
  rw [hrw, bigStore_global 501]

/-- C3: createSession is not idempotent per (ownerId, labRef): with the
session of `demoSession0` (owner 1, lab 1) still active, a second create for
the same pair is admitted and returns a fresh id (1, not the existing 0),
leaving two pending-or-active records for the pair instead of one. -/
theorem duplicateCreateNotIdempotent :
    (createSession initialStoreOneLab 1 1 0).1.session? = some demoSession0 ∧
    demoSession0.id = 0 ∧
    ((createSession s0Store 1 1 1).1.session?.map Session.id) = some 1 ∧
    ((createSession s0Store 1 1 1).2.sessions.countP fun s =>
      s.userId == 1 && s.labId == 1 &&
        (s.status == SessionStatus.pending || s.status == SessionStatus.active)) = 2 := by
  refine ⟨by decide, rfl, by decide, by decide⟩

/-- C4: an admitted create inserts the record directly with status 'active'
(never 'pending'), with startedAt, expiresAt and the access endpoint already
set by the INSERT itself; no provisioning step mediates the transition. -/
theorem sessionBornActive :
    (createSession initialStoreOneLab 1 1 0).1.session? = some demoSession0 ∧
    demoSession0.status = SessionStatus.active ∧
    demoSession0.status ≠ SessionStatus.pending ∧
    demoSession0.startedAt = some 0 ∧
    demoSession0.expiresAt = some 7200000 := by
  refine ⟨by decide, rfl, by decide, rfl, rfl⟩

/-- C5: expiry is not performed by a sweeper at `now >= expiresAt`: it
happens only lazily inside getSession and only strictly after the deadline.
On the reachable store whose single session is active with
expiresAt = 7200000, getSession at now = 7200000 performs no transition,
while getSession at now = 7200001 marks the session expired; no further
exposed operation transitions sessions by time, so a session that is never
read stays active forever. -/
theorem lazyExpiryOnly :
    Reachable s0Store ∧
    (∃ s ∈ s0Store.sessions,
      s.status = SessionStatus.active ∧ s.expiresAt = some 7200000) ∧
    (getSession s0Store 0 1 7200000).2 = s0Store ∧
    ((getSession s0Store 0 1 7200001).2.sessions.countP fun s =>
      s.status == SessionStatus.expired) = 1 :=
  ⟨Reachable.create _ 1 1 0 (Reachable.init _), by decide, by decide, by decide⟩

/-- C6 counterexample: in the reachable store `termStore1` a session with
id 0 owned by user 1 exists (status 'completed'), yet terminateSession
answers NotFound — refuting both "NotFound iff no session with that id and
owner exists" and the claimed InvalidState rejection for terminal sessions. -/
theorem terminateTerminalNotFound :
    Reachable termStore1 ∧
    (∃ s ∈ termStore1.sessions,
      s.id = 0 ∧ s.userId = 1 ∧ s.status = SessionStatus.completed) ∧
    (terminateSession termStore1 0 1 20).1 = TerminateResult.notFound ∧
    (terminateSession termStore1 0 1 20).2 = termStore1 :=
  ⟨Reachable.terminate _ 0 1 10 (Reachable.create _ 1 1 0 (Reachable.init _)),
    by decide, by decide, by decide⟩

/-- C6 amended: terminateSession answers NotFound exactly when no ACTIVE
session with that id and owner exists — in particular an already-terminal
session also yields NotFound (there is no separate InvalidState answer), the
store then being left unchanged — and every matching active session
transitions to 'completed' with endedAt = now. -/
theorem terminateSessionBehavior (st : Store) (i u now : Nat) :
    ((terminateSession st i u now).1 = TerminateResult.notFound ↔
      ¬ ∃ s, s ∈ st.sessions ∧ s.id = i ∧ s.userId = u ∧
        s.status = SessionStatus.active) ∧
    ((terminateSession st i u now).1 = TerminateResult.notFound →
      (terminateSession st i u now).2 = st) ∧
    (∀ s, s ∈ st.sessions → s.id = i → s.userId = u →
      s.status = SessionStatus.active →
      { s with status := SessionStatus.completed, endedAt := some now, updatedAt := now } ∈
        (terminateSession st i u now).2.sessions) := by
  unfold terminateSession
  by_cases hany : (st.sessions.any fun s =>
      s.id == i && s.userId == u && s.status == SessionStatus.active) = true
  · rw [if_pos hany]
    obtain ⟨w, hw, hwp⟩ := List.any_eq_true.mp hany
    rw [Bool.and_eq_true, Bool.and_eq_true, beq_iff_eq, beq_iff_eq, beq_iff_eq] at hwp
    refine ⟨?_, ?_, ?_⟩
    · constructor
      · intro hco
        simp at hco
      · intro hno
        exact absurd ⟨w, hw, hwp.1.1, hwp.1.2, hwp.2⟩ hno
    · intro hco
      simp at hco
    · intro s hs hid huid hstat
      simp only
      refine List.mem_map.mpr ⟨s, hs, ?_⟩
      unfold terminateUpdate
      rw [if_pos]
      simp [hid, huid, hstat]
  · rw [if_neg hany]
    have hno : ¬ ∃ s, s ∈ st.sessions ∧ s.id = i ∧ s.userId = u ∧
        s.status = SessionStatus.active := by
      intro hex
      obtain ⟨s, hs, hid, huid, hstat⟩ := hex
      apply hany
      refine List.any_eq_true.mpr ⟨s, hs, ?_⟩
      rw [Bool.and_eq_true, Bool.and_eq_true, beq_iff_eq, beq_iff_eq, beq_iff_eq]
      exact ⟨⟨hid, huid⟩, hstat⟩
    refine ⟨⟨fun _ => hno, fun _ => rfl⟩, fun _ => rfl, ?_⟩
    intro s hs hid huid hstat
    exact absurd ⟨s, hs, hid, huid, hstat⟩ hno

/-- C6 witness: terminating the lone active session completes it with
endedAt = 10. -/
theorem terminateSessionBehavior_witness :
    { demoSession0 with status := SessionStatus.completed, endedAt := some 10, updatedAt := 10 } ∈
      (terminateSession s0Store 0 1 10).2.sessions :=
  (terminateSessionBehavior s0Store 0 1 10).2.2 demoSession0 (by decide) rfl rfl rfl

/-- C7 witness helper and claim are stated over the spec-modelled
extendSession (the backend exposes no extend route): starting from any
session whose startedAt is t0 and whose expiresAt does not exceed
t0 + maxSessionDuration — as holds for every session the create handler
admits, since 120 min ≤ 180 min — any sequence of extension requests leaves
expiresAt at most t0 + maxSessionDuration, each step clamping it to
min(expiresAt + requested, startedAt + maxSessionDuration). -/
theorem extensionMonotonicity (s : Session) (reqs : List Nat) (t0 : Nat)
    (hst : s.startedAt = some t0)
    (hbound : ∀ e, s.expiresAt = some e → e ≤ t0 + maxSessionDurationMs) :
    ∀ e, (reqs.foldl extendSession s).expiresAt = some e →
      e ≤ t0 + maxSessionDurationMs := by
  induction reqs generalizing s with
  | nil => simpa using hbound
  | cons r rs ih =>
    rw [List.foldl_cons]
    obtain ⟨h1, h2⟩ := extendSession_fields s r t0 hst hbound
    exact ih (extendSession s r) h1 h2

/-- C7 witness: one +90 min extension of the session created at time 0 is
clamped to startedAt + 180 min = 10800000 ms, within the maximum. -/
theorem extensionMonotonicity_witness :
    ([5400000].foldl extendSession demoSession0).expiresAt = some 10800000 ∧
    10800000 ≤ 0 + maxSessionDurationMs :=
  ⟨by decide,
    extensionMonotonicity demoSession0 [5400000] 0 rfl
      (fun e he => by
        simp only [demoSession0, Option.some.injEq] at he
        simp only [maxSessionDurationMs]
        omega)
      10800000 (by decide)⟩

/-- C8: whenever a session becomes active — which in this router happens
exactly at admitted creation — its expiresAt is startedAt + sessionDuration,
with sessionDuration = 2 h = 120 minutes. -/
theorem expiresAtFromStartedAt (st : Store) (u l now : Nat) (s : Session)
    (h : (createSession st u l now).1 = CreateResult.ok s) :
    s.status = SessionStatus.active ∧ s.startedAt = some now ∧
    s.expiresAt = some (now + sessionDurationMs) ∧
    sessionDurationMs = 120 * 60 * 1000 := by
  unfold createSession at h
  split at h
  · simp at h
  · split at h
    · simp at h
    · have hs : newSessionRow st u l now = s := by simpa using h
      cases hs
      exact ⟨rfl, rfl, rfl, rfl⟩

/-- C8 witness: the session created at time 0 has startedAt 0 and
expiresAt 0 + 7200000. -/
theorem expiresAtFromStartedAt_witness :
    demoSession0.status = SessionStatus.active ∧
    demoSession0.startedAt = some 0 ∧
    demoSession0.expiresAt = some (0 + sessionDurationMs) ∧
    sessionDurationMs = 120 * 60 * 1000 :=
  expiresAtFromStartedAt initialStoreOneLab 1 1 0 demoSession0 (by decide)

/-- C9: in every reachable store, endedAt is set iff the status is terminal
(completed, expired or failed), and expiresAt is set iff the status is one
of active, completed, expired; every exposed operation preserves this. -/
theorem sessionFieldInvariants (st : Store) (h : Reachable st) :
    ∀ s ∈ st.sessions,
      (s.endedAt ≠ none ↔
        (s.status = SessionStatus.completed ∨ s.status = SessionStatus.expired ∨
         s.status = SessionStatus.failed)) ∧
      (s.expiresAt ≠ none ↔
        (s.status = SessionStatus.active ∨ s.status = SessionStatus.completed ∨
         s.status = SessionStatus.expired)) := by
  intro s hs
  obtain ⟨he, hstat, hiff⟩ := reachable_sessionWF st h s hs
  exact ⟨hiff, fun _ => hstat, fun _ => he⟩

/-- C9 witness: the invariant evaluated on the freshly created session. -/
theorem sessionFieldInvariants_witness :
    (demoSession0.endedAt ≠ none ↔
      (demoSession0.status = SessionStatus.completed ∨
       demoSession0.status = SessionStatus.expired ∨
       demoSession0.status = SessionStatus.failed)) ∧
    (demoSession0.expiresAt ≠ none ↔
      (demoSession0.status = SessionStatus.active ∨
       demoSession0.status = SessionStatus.completed ∨
       demoSession0.status = SessionStatus.expired)) :=
  sessionFieldInvariants s0Store (Reachable.create _ 1 1 0 (Reachable.init _))
    demoSession0 (by decide)

/-- C10: getSession mutates the store exactly on an owned active session
whose expiresAt is strictly in the past: that row is rewritten to status
'expired' with endedAt = now and the mutated session is returned; in every
other case (no matching row, row not active, or deadline not yet strictly
past) the store is returned unchanged. -/
theorem getSessionFrameEffect (st : Store) (i u now : Nat) :
    (st.sessions.find? (fun x => x.id == i && x.userId == u) = none →
      getSession st i u now = (GetResult.notFound, st)) ∧
    (∀ s, st.sessions.find? (fun x => x.id == i && x.userId == u) = some s →
      ((s.status = SessionStatus.active ∧ s.expiresAt.getD 0 < now →
        (getSession st i u now).1 =
          GetResult.ok { s with status := SessionStatus.expired, endedAt := some now } ∧
        (∀ x ∈ st.sessions, x.id ≠ s.id →
          x ∈ (getSession st i u now).2.sessions) ∧
        (∀ x ∈ st.sessions, x.id = s.id →
          { x with status := SessionStatus.expired, endedAt := some now, updatedAt := now } ∈
            (getSession st i u now).2.sessions)) ∧
       (¬ (s.status = SessionStatus.active ∧ s.expiresAt.getD 0 < now) →
        getSession st i u now = (GetResult.ok s, st)))) := by
  constructor
  · exact getSession_eq_of_find_none st i u now
  · intro s hf
    rw [getSession_eq_of_find_some st i u now s hf]
    constructor
    · intro hcond
      have hc : (s.expiresAt.getD 0 < now &&
          s.status == SessionStatus.active) = true := by
        simp [hcond.1, hcond.2]
      rw [if_pos hc]
      refine ⟨rfl, ?_, ?_⟩
      · intro x hx hne
        simp only
        refine List.mem_map.mpr ⟨x, hx, ?_⟩
        unfold expireUpdate
        rw [if_neg]
        simp [hne]
      · intro x hx heqid
        simp only
        refine List.mem_map.mpr ⟨x, hx, ?_⟩
        unfold expireUpdate
        rw [if_pos (by simp [heqid])]
    · intro hnc
      have hc : ¬ ((s.expiresAt.getD 0 < now &&
          s.status == SessionStatus.active) = true) := by
        intro hcc
        rw [Bool.and_eq_true, decide_eq_true_eq, beq_iff_eq] at hcc
        exact hnc ⟨hcc.2, hcc.1⟩
      rw [if_neg hc]

/-- C10 witness: reading the fresh session well before its deadline returns
it unchanged and leaves the store untouched. -/
theorem getSessionFrameEffect_witness :
    getSession s0Store 0 1 100 = (GetResult.ok demoSession0, s0Store) :=
  ((getSessionFrameEffect s0Store 0 1 100).2 demoSession0 (by decide)).2 (by decide)

end WorkshopPlatform
